import Mathlib

set_option maxHeartbeats 1000000

/-!
Verification development for the local-file-transfer backend.

The definitions below are a shallow embedding of the C++ sources:
  backend/src/protocol.cpp        (TransferMessage::serialize / deserialize)
  backend/src/fileTransferServer.cpp
      (FileTransferServer::handleClient, receiveFile, removeClient, stop)
  backend/include/protocol.hpp, the server header (ClientInfo, FileInfo)

JSON values are modelled as a tree; the nlohmann dump/parse pair is the
identity on that tree, so serialization is modelled at tree level.
Socket reads are modelled as an environment trace of read events, one per
recv() call; the `is_running` flag turning false is an event as well.
-/

/-- MessageType enum of protocol.hpp. -/
inductive MessageType where
  | DISCOVERY
  | DISCOVERY_RESPONSE
  | FILE_INFO
  | FILE_CHUNK
  | TRANSFER_PROGRESS
  | DISCONNECT
  | ERROR
  deriving DecidableEq

/-- JSON value tree (nlohmann::json as used by this repository:
objects, strings, unsigned integers, null). -/
inductive Json where
  | null
  | str (s : String)
  | num (n : Nat)
  | obj (fields : List (String × Json))

/-- Key lookup in a JSON object (first match). -/
def jlookup : List (String × Json) → String → Option Json
  | [], _ => none
  | (k, v) :: rest, key => if k = key then some v else jlookup rest key

/-- Non-const operator[] read: a missing key yields null. -/
def jgetD (fields : List (String × Json)) (key : String) : Json :=
  (jlookup fields key).getD Json.null

/-- The keys of a JSON object. -/
def jkeys (fields : List (String × Json)) : List String :=
  fields.map Prod.fst

/-- TransferMessage as constructed by callers of serialize: the type field
is a definite enum value. -/
structure TMsg where
  type : MessageType
  data : Json

/-- TransferMessage as produced by deserialize: `type?. = none` models the
C++ enum field being left unassigned (indeterminate) when the incoming
type string matches none of the known kinds. -/
structure TransferMessageD where
  type? : Option MessageType
  data : Json

/-- Enum-to-string conversion of TransferMessage::serialize. -/
def typeName : MessageType → String
  | MessageType.DISCOVERY => "DISCOVERY"
  | MessageType.DISCOVERY_RESPONSE => "DISCOVERY_RESPONSE"
  | MessageType.FILE_INFO => "FILE_INFO"
  | MessageType.FILE_CHUNK => "FILE_CHUNK"
  | MessageType.TRANSFER_PROGRESS => "TRANSFER_PROGRESS"
  | MessageType.DISCONNECT => "DISCONNECT"
  | MessageType.ERROR => "ERROR"

/-- String-to-enum if-chain of TransferMessage::deserialize; none models
the missing final else (the enum stays unassigned). -/
def parseMsgType (s : String) : Option MessageType :=
  if s = "DISCOVERY" then some MessageType.DISCOVERY
  else if s = "DISCOVERY_RESPONSE" then some MessageType.DISCOVERY_RESPONSE
  else if s = "FILE_INFO" then some MessageType.FILE_INFO
  else if s = "FILE_CHUNK" then some MessageType.FILE_CHUNK
  else if s = "TRANSFER_PROGRESS" then some MessageType.TRANSFER_PROGRESS
  else if s = "DISCONNECT" then some MessageType.DISCONNECT
  else if s = "ERROR" then some MessageType.ERROR
  else none

/-- TransferMessage::serialize (protocol.cpp lines 11-56).  FILE_CHUNK
messages return early with the chunk fields flattened at top level and no
"data" member; every other kind carries the whole payload under "data".
For FILE_CHUNK with a non-object payload the const operator[] calls are
undefined behaviour in nlohmann; that case is excluded by wellformedness
and marked with null here. -/
def serializeD (m : TMsg) : Json :=
  match m.type with
  | MessageType.FILE_CHUNK =>
    match m.data with
    | Json.obj f =>
      Json.obj [("type", Json.str "FILE_CHUNK"),
                ("chunk_data", jgetD f "chunk_data"),
                ("chunk_size", jgetD f "chunk_size"),
                ("chunk_index", jgetD f "chunk_index")]
    | _ => Json.null
  | t => Json.obj [("type", Json.str (typeName t)), ("data", m.data)]

/-- TransferMessage::deserialize (protocol.cpp lines 62-87), after JSON
parsing.  A missing or non-string "type" member throws on conversion to
std::string (modelled as none); an unrecognized type string leaves the
enum field unassigned but the function still returns a message whose data
is read from "data" (null when absent). -/
def deserializeD (j : Json) : Option TransferMessageD :=
  match j with
  | Json.obj f =>
    match jlookup f "type" with
    | some (Json.str t) =>
      match parseMsgType t with
      | some MessageType.FILE_CHUNK =>
        some ⟨some MessageType.FILE_CHUNK,
              Json.obj [("chunk_data", jgetD f "chunk_data"),
                        ("chunk_size", jgetD f "chunk_size"),
                        ("chunk_index", jgetD f "chunk_index")]⟩
      | ty => some ⟨ty, jgetD f "data"⟩
    | some _ => none
    | none => none
  | _ => none

/-- Wellformedness of a message handed to serialize: a FILE_CHUNK payload
is an object carrying exactly the three flattened chunk fields. -/
def wfTMsg (m : TMsg) : Prop :=
  match m.type, m.data with
  | MessageType.FILE_CHUNK, Json.obj f =>
      jkeys f = ["chunk_data", "chunk_size", "chunk_index"]
  | MessageType.FILE_CHUNK, _ => False
  | _, _ => True

/-- FileInfo struct of protocol.hpp. -/
structure FileInfoD where
  filename : String
  filesize : Nat
  checksum : String
  deriving DecidableEq

/-- ClientInfo registry entry (server header).  The handler_thread pointer
is a thread handle, not data, and is omitted. -/
structure ClientInfo where
  socket_fd : Int
  ip_address : String
  port : Nat
  is_active : Bool
  bytes_received : Nat
  current_filename : String
  deriving DecidableEq

/-- One recv() interaction of the file-receive loop, as seen from the
server: data delivered, peer close (recv returns 0), timeout
(EAGAIN/EWOULDBLOCK), a real socket error, or the global is_running flag
observed false at the loop head. -/
inductive ReadEvent where
  | data (bytes : List Nat)
  | closed
  | timeout
  | sockError
  | shutdown
  deriving DecidableEq

/-- How the receive loop of receiveFile was exited. -/
inductive ExitKind where
  | completed
  | peerClosed
  | sockError
  | shutdown
  deriving DecidableEq

/-- Accumulated loop state at exit of the receive loop. -/
structure LoopOut where
  total : Nat
  content : List Nat
  updates : List Nat
  prog : List (String × Int)
  exitKind : ExitKind
  deriving DecidableEq

/-- Status messages the server sends back to the peer (the JSON status
objects built in handleClient/receiveFile). -/
inductive ServerMsg where
  | ready
  | receiving
  | complete (filename : String)
  | error (reason : String)
  deriving DecidableEq

/-- Observable outcome of one receiveFile call: return value, final state
of the output file on disk (none = absent/deleted), whether the stream is
still open on return, status messages sent, progress-callback
invocations, the sequence of bytes_received registry updates, the
file-received callback invocation, and whether an output file was ever
created. -/
structure RResult where
  success : Bool
  fileOnDisk : Option (List Nat)
  fileOpen : Bool
  sent : List ServerMsg
  progressCalls : List (String × Int)
  registryUpdates : List Nat
  fileReceivedCall : Option (String × Nat)
  fileCreated : Bool
  deriving DecidableEq

/-- The receive loop of FileTransferServer::receiveFile (lines 363-409):
while is_running and fewer than filesize bytes received, recv up to
min(remaining, 8192) bytes; a data event must obey recv semantics
(nonempty, at most the requested amount) or the trace is rejected (none);
zero bytes means the peer closed; timeouts retry; after each read the
bytes are appended to the file, the registry counter is set to the new
total, and the progress callback fires when the integer percentage is a
new value and a multiple of 10.  Returns none when the trace ends while
the loop would keep reading. -/
def recvLoop (filesize : Nat) (ip : String) :
    List ReadEvent → Nat → List Nat → Int → List Nat → List (String × Int) →
    Option LoopOut
  | events, total, content, lastPct, upd, prog =>
    if total < filesize then
      match events with
      | [] => none
      | ReadEvent.shutdown :: _ =>
          some ⟨total, content, upd, prog, ExitKind.shutdown⟩
      | ReadEvent.timeout :: rest =>
          recvLoop filesize ip rest total content lastPct upd prog
      | ReadEvent.sockError :: _ =>
          some ⟨total, content, upd, prog, ExitKind.sockError⟩
      | ReadEvent.closed :: _ =>
          some ⟨total, content, upd, prog, ExitKind.peerClosed⟩
      | ReadEvent.data c :: rest =>
        if c.length = 0 ∨ min (filesize - total) 8192 < c.length then none
        else if Int.ofNat ((total + c.length) * 100 / filesize) ≠ lastPct ∧
                Int.ofNat ((total + c.length) * 100 / filesize) % 10 = 0 then
          recvLoop filesize ip rest (total + c.length) (content ++ c)
            (Int.ofNat ((total + c.length) * 100 / filesize))
            (upd ++ [total + c.length])
            (prog ++ [(ip, Int.ofNat ((total + c.length) * 100 / filesize))])
        else
          recvLoop filesize ip rest (total + c.length) (content ++ c)
            lastPct (upd ++ [total + c.length]) prog
    else
      some ⟨total, content, upd, prog, ExitKind.completed⟩

/-- FileTransferServer::receiveFile (lines 333-432).  canOpen models
whether the output stream opens; on failure an error status is sent and
no file is created.  Otherwise the "receiving" status is sent, the loop
runs, the file is closed on every exit path, and it is deleted unless
exactly filesize bytes arrived, in which case the file-received callback
runs and a "complete" status is sent. -/
def receiveFile (canOpen : Bool) (fi : FileInfoD) (ip : String)
    (events : List ReadEvent) : Option RResult :=
  if canOpen = false then
    some ⟨false, none, false, [ServerMsg.error "Cannot create file"],
          [], [], none, false⟩
  else
    match recvLoop fi.filesize ip events 0 [] (-1) [] [] with
    | none => none
    | some lo =>
      match lo.exitKind with
      | ExitKind.peerClosed =>
          some ⟨false, none, false, [ServerMsg.receiving],
                lo.prog, lo.updates, none, true⟩
      | ExitKind.sockError =>
          some ⟨false, none, false, [ServerMsg.receiving],
                lo.prog, lo.updates, none, true⟩
      | _ =>
        if lo.total = fi.filesize then
          some ⟨true, some lo.content, false,
                [ServerMsg.receiving, ServerMsg.complete fi.filename],
                lo.prog, lo.updates, some (fi.filename, lo.total), true⟩
        else
          some ⟨false, none, false, [ServerMsg.receiving],
                lo.prog, lo.updates, none, true⟩

/-- Cumulative byte totals after each successful read. -/
def partialTotals : Nat → List (List Nat) → List Nat
  | _, [] => []
  | total, c :: cs => (total + c.length) :: partialTotals (total + c.length) cs

/-- Progress-callback invocations produced by a run of the receive loop
over the given chunks, mirroring the loop's percentage rule. -/
def progAcc (filesize : Nat) (ip : String) :
    Int → Nat → List (List Nat) → List (String × Int)
  | _, _, [] => []
  | lastPct, total, c :: cs =>
    if Int.ofNat ((total + c.length) * 100 / filesize) ≠ lastPct ∧
       Int.ofNat ((total + c.length) * 100 / filesize) % 10 = 0 then
      (ip, Int.ofNat ((total + c.length) * 100 / filesize)) ::
        progAcc filesize ip (Int.ofNat ((total + c.length) * 100 / filesize))
          (total + c.length) cs
    else
      progAcc filesize ip lastPct (total + c.length) cs

/-- The progress-reporting rule stated over the sequence of cumulative
totals: a callback fires exactly when the integer percentage
(total * 100 / filesize) is a multiple of 10 and differs from the last
reported value (initially -1). -/
def progressFilter (filesize : Nat) (ip : String) :
    Int → List Nat → List (String × Int)
  | _, [] => []
  | lastPct, t :: ts =>
    if Int.ofNat (t * 100 / filesize) ≠ lastPct ∧
       Int.ofNat (t * 100 / filesize) % 10 = 0 then
      (ip, Int.ofNat (t * 100 / filesize)) ::
        progressFilter filesize ip (Int.ofNat (t * 100 / filesize)) ts
    else
      progressFilter filesize ip lastPct ts

/-- True when the list contains no Error-kind status message. -/
def isErrorKind : ServerMsg → Bool
  | ServerMsg.error _ => true
  | _ => false

/-- No Error-kind status message occurs in the list. -/
def noErrorSent : List ServerMsg → Bool
  | [] => true
  | m :: rest => if isErrorKind m then false else noErrorSent rest

/-- Length of the stored file, when one exists. -/
def diskLen : Option (List Nat) → Option Nat
  | none => none
  | some l => some l.length

/-- Outcome of a transfer whose body arrives completely. -/
def completeResult (fi : FileInfoD) (ip : String)
    (chunks : List (List Nat)) : RResult :=
  ⟨true, some chunks.flatten, false,
   [ServerMsg.receiving, ServerMsg.complete fi.filename],
   progressFilter fi.filesize ip (-1) (partialTotals 0 chunks),
   partialTotals 0 chunks, some (fi.filename, fi.filesize), true⟩

/-- Outcome of a transfer cut short by the peer closing the socket. -/
def closedResult (filesize : Nat) (ip : String)
    (chunks : List (List Nat)) : RResult :=
  ⟨false, none, false, [ServerMsg.receiving],
   progressFilter filesize ip (-1) (partialTotals 0 chunks),
   partialTotals 0 chunks, none, true⟩

/-- Registry write of the FILE_INFO handler (handleClient lines 280-289):
the first entry whose socket matches gets the announced filename recorded
and its bytes-received counter reset to 0.  ClientInfo stores no size
field, so the announced filesize is not recorded here. -/
def updateClientFileInfo : List ClientInfo → Int → String → List ClientInfo
  | [], _, _ => []
  | c :: rest, sock, name =>
    if c.socket_fd = sock then
      { c with current_filename := name, bytes_received := 0 } :: rest
    else
      c :: updateClientFileInfo rest sock name

/-- Registry write inside the receive loop (receiveFile lines 389-397):
set bytes_received of the first matching entry. -/
def setBytes : List ClientInfo → Int → Nat → List ClientInfo
  | [], _, _ => []
  | c :: rest, sock, n =>
    if c.socket_fd = sock then
      { c with bytes_received := n } :: rest
    else
      c :: setBytes rest sock n

/-- Apply the sequence of bytes_received updates a transfer performed. -/
def applyUpdates (clients : List ClientInfo) (sock : Int)
    (us : List Nat) : List ClientInfo :=
  us.foldl (fun cl n => setBytes cl sock n) clients

/-- FileTransferServer::removeClient (lines 437-468): find the first
entry with the given socket, close it and erase it; an absent id is a
no-op. -/
def removeClient : List ClientInfo → Int → List ClientInfo
  | [], _ => []
  | c :: rest, sock =>
    if c.socket_fd = sock then rest else c :: removeClient rest sock

/-- Per-connection receive-loop state after handling one message:
awaitingMessage means the while loop in handleClient continues to the
next recv; closed means the handler returned. -/
inductive SessionState where
  | awaitingMessage
  | closed
  deriving DecidableEq

/-- Observable outcome of handling one framed message in handleClient. -/
structure HandleOut where
  state : SessionState
  clients : List ClientInfo
  sent : List ServerMsg
  transfer : Option RResult
  deriving DecidableEq

/-- Field extraction of the FILE_INFO case (handleClient lines 273-275):
msg.data["filename"] must convert to a string and msg.data["filesize"] to
an unsigned integer, otherwise the conversion throws and the catch block
resumes the loop.  The checksum field is never read. -/
def extractFileInfo (d : Json) : Option FileInfoD :=
  match d with
  | Json.obj f =>
    match jlookup f "filename", jlookup f "filesize" with
    | some (Json.str name), some (Json.num size) => some ⟨name, size, ""⟩
    | _, _ => none
  | _ => none

/-- Wire form of the FILE_INFO message a client sends (sendFile in the
client source builds filename/filesize/checksum under "data"). -/
def fileInfoJson (name : String) (size : Nat) : Json :=
  Json.obj [("type", Json.str "FILE_INFO"),
            ("data", Json.obj [("filename", Json.str name),
                               ("filesize", Json.num size),
                               ("checksum", Json.str "")])]

/-- One iteration of the message loop in FileTransferServer::handleClient
(lines 267-323) on a successfully parsed JSON text j.  canOpen and body
parameterize the environment of a file transfer triggered by a FILE_INFO
message.  Any exception (parse failure modelled upstream, field
conversion failure, unknown-kind fallthrough to the default case) is
logged and the loop continues.  DISCONNECT removes the client and
returns; a failed transfer does not close the session. -/
def handleMessage (clients : List ClientInfo) (sock : Int) (ip : String)
    (j : Json) (canOpen : Bool) (body : List ReadEvent) : Option HandleOut :=
  match deserializeD j with
  | none => some ⟨SessionState.awaitingMessage, clients, [], none⟩
  | some msg =>
    match msg.type? with
    | some MessageType.FILE_INFO =>
      match extractFileInfo msg.data with
      | none => some ⟨SessionState.awaitingMessage, clients, [], none⟩
      | some fi =>
        match receiveFile canOpen fi ip body with
        | none => none
        | some r =>
          some ⟨SessionState.awaitingMessage,
                applyUpdates (updateClientFileInfo clients sock fi.filename)
                  sock r.registryUpdates,
                ServerMsg.ready :: r.sent, some r⟩
    | some MessageType.DISCONNECT =>
      some ⟨SessionState.closed, removeClient clients sock, [], none⟩
    | some MessageType.ERROR =>
      some ⟨SessionState.awaitingMessage, clients, [], none⟩
    | _ => some ⟨SessionState.awaitingMessage, clients, [], none⟩

/-- Server-level state touched by FileTransferServer::stop. -/
structure ServerState where
  is_running : Bool
  server_fd : Int
  clients : List ClientInfo
  accept_thread_live : Bool
  deriving DecidableEq

/-- FileTransferServer::stop (lines 86-166): early return when not
running; otherwise clear the flag, close the listening socket, close all
client sockets, retire the accept thread and clear the client list. -/
def stopD (s : ServerState) : ServerState :=
  if s.is_running = false then s
  else
    { is_running := false,
      server_fd := if 0 ≤ s.server_fd then -1 else s.server_fd,
      clients := [],
      accept_thread_live := false }

/-- Output-file naming of receiveFile (lines 334-338): a timestamp is
computed but never used; the stored path is the announced filename
verbatim. -/
def outputFilename (fi : FileInfoD) (_ts : Nat) : String :=
  fi.filename

/-- Filesystem as a map from path to file content. -/
def FileSys : Type := String → Option (List Nat)

/-- Effect of one receiveFile call on the filesystem: when an output file
was created (ofstream in truncating mode), the path holds exactly the
final on-disk outcome of the transfer, regardless of what was stored
there before; every other path is untouched. -/
def applyReceive (fs : FileSys) (fi : FileInfoD) (ts : Nat)
    (r : RResult) : FileSys :=
  if r.fileCreated = false then fs
  else fun p => if p = outputFilename fi ts then r.fileOnDisk else fs p

/-- A sample filesystem holding one file at a traversal path. -/
def demoFs : FileSys :=
  fun p => if p = "../x" then some [9, 9] else none

/-- C4: for every well-formed TransferMessage (known kind, payload shape
matching the kind, FILE_CHUNK fields flattened at top level on the wire),
deserialize after serialize returns a message of the same kind carrying
the identical payload. -/
theorem serialize_deserialize_roundtrip (m : TMsg) (h : wfTMsg m) :
    deserializeD (serializeD m) = some ⟨some m.type, m.data⟩ := by
  obtain ⟨t, d⟩ := m
  cases t with
  | FILE_CHUNK =>
    cases d with
    | null => exact absurd h (by simp [wfTMsg])
    | str s => exact absurd h (by simp [wfTMsg])
    | num n => exact absurd h (by simp [wfTMsg])
    | obj f =>
      simp only [wfTMsg] at h
      cases f with
      | nil => simp [jkeys] at h
      | cons p1 f1 =>
        cases f1 with
        | nil => simp [jkeys] at h
        | cons p2 f2 =>
          cases f2 with
          | nil => simp [jkeys] at h
          | cons p3 f3 =>
            cases f3 with
            | cons p4 f4 => simp [jkeys] at h
            | nil =>
              obtain ⟨k1, v1⟩ := p1
              obtain ⟨k2, v2⟩ := p2
              obtain ⟨k3, v3⟩ := p3
              simp only [jkeys, List.map_cons, List.map_nil,
                List.cons.injEq, and_true] at h
              obtain ⟨h1, h2, h3⟩ := h
              subst h1; subst h2; subst h3
              rfl
  | DISCOVERY => rfl
  | DISCOVERY_RESPONSE => rfl
  | FILE_INFO => rfl
  | TRANSFER_PROGRESS => rfl
  | DISCONNECT => rfl
  | ERROR => rfl

/-- Witness for C4 at a concrete FILE_CHUNK message. -/
theorem serialize_deserialize_roundtrip_witness :
    deserializeD (serializeD ⟨MessageType.FILE_CHUNK,
        Json.obj [("chunk_data", Json.str "QUJD"),
                  ("chunk_size", Json.num 3),
                  ("chunk_index", Json.num 0)]⟩) =
      some ⟨some MessageType.FILE_CHUNK,
        Json.obj [("chunk_data", Json.str "QUJD"),
                  ("chunk_size", Json.num 3),
                  ("chunk_index", Json.num 0)]⟩ :=
  serialize_deserialize_roundtrip
    ⟨MessageType.FILE_CHUNK,
      Json.obj [("chunk_data", Json.str "QUJD"),
                ("chunk_size", Json.num 3),
                ("chunk_index", Json.num 0)]⟩ rfl

/-- Unfolding of the receive loop on an exhausted trace. -/
theorem recvLoop_nil (filesize : Nat) (ip : String) (total : Nat)
    (content : List Nat) (lastPct : Int) (upd : List Nat)
    (prog : List (String × Int)) :
    recvLoop filesize ip [] total content lastPct upd prog =
      if total < filesize then none
      else some ⟨total, content, upd, prog, ExitKind.completed⟩ := by
  rw [recvLoop]

/-- Unfolding of the receive loop at a shutdown observation. -/
theorem recvLoop_shutdown (filesize : Nat) (ip : String)
    (rest : List ReadEvent) (total : Nat) (content : List Nat)
    (lastPct : Int) (upd : List Nat) (prog : List (String × Int)) :
    recvLoop filesize ip (ReadEvent.shutdown :: rest) total content lastPct upd prog =
      if total < filesize then some ⟨total, content, upd, prog, ExitKind.shutdown⟩
      else some ⟨total, content, upd, prog, ExitKind.completed⟩ := by
  rw [recvLoop]

/-- Unfolding of the receive loop at a read timeout. -/
theorem recvLoop_timeout (filesize : Nat) (ip : String)
    (rest : List ReadEvent) (total : Nat) (content : List Nat)
    (lastPct : Int) (upd : List Nat) (prog : List (String × Int)) :
    recvLoop filesize ip (ReadEvent.timeout :: rest) total content lastPct upd prog =
      if total < filesize then recvLoop filesize ip rest total content lastPct upd prog
      else some ⟨total, content, upd, prog, ExitKind.completed⟩ := by
  rw [recvLoop]

/-- Unfolding of the receive loop at a socket error. -/
theorem recvLoop_sockError (filesize : Nat) (ip : String)
    (rest : List ReadEvent) (total : Nat) (content : List Nat)
    (lastPct : Int) (upd : List Nat) (prog : List (String × Int)) :
    recvLoop filesize ip (ReadEvent.sockError :: rest) total content lastPct upd prog =
      if total < filesize then some ⟨total, content, upd, prog, ExitKind.sockError⟩
      else some ⟨total, content, upd, prog, ExitKind.completed⟩ := by
  rw [recvLoop]

/-- Unfolding of the receive loop at a peer close (recv returns 0). -/
theorem recvLoop_closed (filesize : Nat) (ip : String)
    (rest : List ReadEvent) (total : Nat) (content : List Nat)
    (lastPct : Int) (upd : List Nat) (prog : List (String × Int)) :
    recvLoop filesize ip (ReadEvent.closed :: rest) total content lastPct upd prog =
      if total < filesize then some ⟨total, content, upd, prog, ExitKind.peerClosed⟩
      else some ⟨total, content, upd, prog, ExitKind.completed⟩ := by
  rw [recvLoop]

/-- Unfolding of the receive loop at a data delivery. -/
theorem recvLoop_data (filesize : Nat) (ip : String) (c : List Nat)
    (rest : List ReadEvent) (total : Nat) (content : List Nat)
    (lastPct : Int) (upd : List Nat) (prog : List (String × Int)) :
    recvLoop filesize ip (ReadEvent.data c :: rest) total content lastPct upd prog =
      if total < filesize then
        if c.length = 0 ∨ min (filesize - total) 8192 < c.length then none
        else if Int.ofNat ((total + c.length) * 100 / filesize) ≠ lastPct ∧
                Int.ofNat ((total + c.length) * 100 / filesize) % 10 = 0 then
          recvLoop filesize ip rest (total + c.length) (content ++ c)
            (Int.ofNat ((total + c.length) * 100 / filesize))
            (upd ++ [total + c.length])
            (prog ++ [(ip, Int.ofNat ((total + c.length) * 100 / filesize))])
        else
          recvLoop filesize ip rest (total + c.length) (content ++ c)
            lastPct (upd ++ [total + c.length]) prog
      else some ⟨total, content, upd, prog, ExitKind.completed⟩ := by
  rw [recvLoop]

/-- The loop-visible progress invocations coincide with the percentage
rule applied to the sequence of cumulative totals. -/
theorem progAcc_eq_filter (filesize : Nat) (ip : String) :
    ∀ (chunks : List (List Nat)) (lastPct : Int) (total : Nat),
      progAcc filesize ip lastPct total chunks =
        progressFilter filesize ip lastPct (partialTotals total chunks) := by
  intro chunks
  induction chunks with
  | nil => intro lastPct total; rfl
  | cons c cs ih =>
    intro lastPct total
    rw [partialTotals, progAcc, progressFilter]
    by_cases hp : Int.ofNat ((total + c.length) * 100 / filesize) ≠ lastPct ∧
        Int.ofNat ((total + c.length) * 100 / filesize) % 10 = 0
    · rw [if_pos hp, if_pos hp, ih]
    · rw [if_neg hp, if_neg hp, ih]

/-- The file content written so far always has exactly the received
byte count. -/
theorem recvLoop_length (filesize : Nat) (ip : String) :
    ∀ (events : List ReadEvent) (total : Nat) (content : List Nat)
      (lastPct : Int) (upd : List Nat) (prog : List (String × Int))
      (lo : LoopOut),
      recvLoop filesize ip events total content lastPct upd prog = some lo →
      content.length = total → lo.content.length = lo.total := by
  intro events
  induction events with
  | nil =>
    intro total content lastPct upd prog lo h hc
    rw [recvLoop_nil] at h
    split at h
    · exact absurd h (by simp)
    · obtain rfl : LoopOut.mk total content upd prog ExitKind.completed = lo :=
        Option.some.inj h
      exact hc
  | cons e rest ih =>
    intro total content lastPct upd prog lo h hc
    cases e with
    | shutdown =>
      rw [recvLoop_shutdown] at h
      split at h <;>
        (obtain rfl := Option.some.inj h; exact hc)
    | timeout =>
      rw [recvLoop_timeout] at h
      split at h
      · exact ih total content lastPct upd prog lo h hc
      · obtain rfl := Option.some.inj h; exact hc
    | sockError =>
      rw [recvLoop_sockError] at h
      split at h <;>
        (obtain rfl := Option.some.inj h; exact hc)
    | closed =>
      rw [recvLoop_closed] at h
      split at h <;>
        (obtain rfl := Option.some.inj h; exact hc)
    | data c =>
      rw [recvLoop_data] at h
      split at h
      · split at h
        · exact absurd h (by simp)
        · split at h
          · exact ih _ _ _ _ _ _ h (by simp [hc])
          · exact ih _ _ _ _ _ _ h (by simp [hc])
      · obtain rfl := Option.some.inj h; exact hc

/-- Running the receive loop over a trace of valid data deliveries whose
bytes sum to exactly the missing amount: the loop consumes them all,
writes them in arrival order, records each cumulative total, fires the
percentage rule, and exits normally. -/
theorem recvLoop_data_complete (filesize : Nat) (ip : String) :
    ∀ (chunks : List (List Nat)) (total : Nat) (content : List Nat)
      (lastPct : Int) (upd : List Nat) (prog : List (String × Int)),
      (∀ c ∈ chunks, c ≠ [] ∧ c.length ≤ 8192) →
      total + chunks.flatten.length = filesize →
      recvLoop filesize ip (chunks.map ReadEvent.data) total content lastPct upd prog =
        some ⟨filesize, content ++ chunks.flatten,
              upd ++ partialTotals total chunks,
              prog ++ progAcc filesize ip lastPct total chunks,
              ExitKind.completed⟩ := by
  intro chunks
  induction chunks with
  | nil =>
    intro total content lastPct upd prog _ hlen
    simp only [List.flatten_nil, List.length_nil, Nat.add_zero] at hlen
    subst hlen
    rw [List.map_nil, recvLoop_nil, if_neg (Nat.lt_irrefl total)]
    simp [partialTotals, progAcc]
  | cons c cs ih =>
    intro total content lastPct upd prog hv hlen
    have hc := hv c (List.mem_cons_self c cs)
    have hcs : ∀ x ∈ cs, x ≠ [] ∧ x.length ≤ 8192 :=
      fun x hx => hv x (List.mem_cons_of_mem c hx)
    have hclen : 0 < c.length := List.length_pos.mpr hc.1
    simp only [List.flatten_cons, List.length_append] at hlen
    have hlt : total < filesize := by omega
    have hle : c.length ≤ min (filesize - total) 8192 :=
      Nat.le_min.mpr ⟨by omega, hc.2⟩
    have hcond : ¬ (c.length = 0 ∨ min (filesize - total) 8192 < c.length) := by
      push_neg
      exact ⟨by omega, hle⟩
    rw [List.map_cons, recvLoop_data, if_pos hlt, if_neg hcond]
    by_cases hp : Int.ofNat ((total + c.length) * 100 / filesize) ≠ lastPct ∧
        Int.ofNat ((total + c.length) * 100 / filesize) % 10 = 0
    · rw [if_pos hp, ih (total + c.length) (content ++ c) _ _ _ hcs (by omega)]
      simp only [partialTotals, progAcc, if_pos hp, List.flatten_cons]
      simp [List.append_assoc]
    · rw [if_neg hp, ih (total + c.length) (content ++ c) _ _ _ hcs (by omega)]
      simp only [partialTotals, progAcc, if_neg hp, List.flatten_cons]
      simp [List.append_assoc]

/-- Running the receive loop over valid data deliveries that fall short
of the declared size, followed by the peer closing the socket: the loop
exits with the peerClosed outcome carrying what arrived so far. -/
theorem recvLoop_data_closed (filesize : Nat) (ip : String) :
    ∀ (chunks : List (List Nat)) (rest : List ReadEvent) (total : Nat)
      (content : List Nat) (lastPct : Int) (upd : List Nat)
      (prog : List (String × Int)),
      (∀ c ∈ chunks, c ≠ [] ∧ c.length ≤ 8192) →
      total + chunks.flatten.length < filesize →
      recvLoop filesize ip
          (chunks.map ReadEvent.data ++ ReadEvent.closed :: rest)
          total content lastPct upd prog =
        some ⟨total + chunks.flatten.length, content ++ chunks.flatten,
              upd ++ partialTotals total chunks,
              prog ++ progAcc filesize ip lastPct total chunks,
              ExitKind.peerClosed⟩ := by
  intro chunks
  induction chunks with
  | nil =>
    intro rest total content lastPct upd prog _ hlen
    simp only [List.flatten_nil, List.length_nil, Nat.add_zero] at hlen ⊢
    rw [List.map_nil, List.nil_append, recvLoop_closed, if_pos hlen]
    simp [partialTotals, progAcc]
  | cons c cs ih =>
    intro rest total content lastPct upd prog hv hlen
    have hc := hv c (List.mem_cons_self c cs)
    have hcs : ∀ x ∈ cs, x ≠ [] ∧ x.length ≤ 8192 :=
      fun x hx => hv x (List.mem_cons_of_mem c hx)
    have hclen : 0 < c.length := List.length_pos.mpr hc.1
    simp only [List.flatten_cons, List.length_append] at hlen ⊢
    have hlt : total < filesize := by omega
    have hle : c.length ≤ min (filesize - total) 8192 :=
      Nat.le_min.mpr ⟨by omega, hc.2⟩
    have hcond : ¬ (c.length = 0 ∨ min (filesize - total) 8192 < c.length) := by
      push_neg
      exact ⟨by omega, hle⟩
    rw [List.map_cons, List.cons_append, recvLoop_data, if_pos hlt, if_neg hcond]
    by_cases hp : Int.ofNat ((total + c.length) * 100 / filesize) ≠ lastPct ∧
        Int.ofNat ((total + c.length) * 100 / filesize) % 10 = 0
    · rw [if_pos hp, ih rest (total + c.length) (content ++ c) _ _ _ hcs (by omega)]
      simp only [partialTotals, progAcc, if_pos hp, List.flatten_cons]
      simp [List.append_assoc]
      omega
    · rw [if_neg hp, ih rest (total + c.length) (content ++ c) _ _ _ hcs (by omega)]
      simp only [partialTotals, progAcc, if_neg hp, List.flatten_cons]
      simp [List.append_assoc]
      omega

/-- receiveFile on a complete valid body: returns the successful outcome. -/
theorem receiveFile_data_complete (fi : FileInfoD) (ip : String)
    (chunks : List (List Nat))
    (hv : ∀ c ∈ chunks, c ≠ [] ∧ c.length ≤ 8192)
    (hlen : chunks.flatten.length = fi.filesize) :
    receiveFile true fi ip (chunks.map ReadEvent.data) =
      some (completeResult fi ip chunks) := by
  rw [receiveFile, if_neg (by simp)]
  rw [recvLoop_data_complete fi.filesize ip chunks 0 [] (-1) [] [] hv
    (by simpa using hlen)]
  simp [completeResult, progAcc_eq_filter, hlen]

/-- receiveFile on a valid short body followed by peer close: the partial
file is deleted and only the "receiving" status was sent. -/
theorem receiveFile_data_closed (fi : FileInfoD) (ip : String)
    (chunks : List (List Nat)) (rest : List ReadEvent)
    (hv : ∀ c ∈ chunks, c ≠ [] ∧ c.length ≤ 8192)
    (hlen : chunks.flatten.length < fi.filesize) :
    receiveFile true fi ip (chunks.map ReadEvent.data ++ ReadEvent.closed :: rest) =
      some (closedResult fi.filesize ip chunks) := by
  rw [receiveFile, if_neg (by simp)]
  rw [recvLoop_data_closed fi.filesize ip chunks rest 0 [] (-1) [] [] hv
    (by simpa using hlen)]
  simp [closedResult, progAcc_eq_filter]

/-- C1: for every FileInfo announcing filesize N followed by a body
stream of exactly N bytes (delivered in recv-sized chunks), receiveFile
succeeds and the stored file content is byte-for-byte the sent body in
arrival order. -/
theorem receiveFile_roundtrip (fi : FileInfoD) (ip : String)
    (chunks : List (List Nat))
    (hv : ∀ c ∈ chunks, c ≠ [] ∧ c.length ≤ 8192)
    (hlen : chunks.flatten.length = fi.filesize) :
    receiveFile true fi ip (chunks.map ReadEvent.data) =
      some (completeResult fi ip chunks) ∧
    (completeResult fi ip chunks).fileOnDisk = some chunks.flatten ∧
    (completeResult fi ip chunks).success = true :=
  ⟨receiveFile_data_complete fi ip chunks hv hlen, rfl, rfl⟩

/-- Witness for C1: the five-byte body "hello" arrives in two reads and
is stored exactly. -/
theorem receiveFile_roundtrip_witness :
    receiveFile true ⟨"notes.txt", 5, ""⟩ "10.0.0.2"
        [ReadEvent.data [104, 101], ReadEvent.data [108, 108, 111]] =
      some (completeResult ⟨"notes.txt", 5, ""⟩ "10.0.0.2"
        [[104, 101], [108, 108, 111]]) ∧
    (completeResult ⟨"notes.txt", 5, ""⟩ "10.0.0.2"
        [[104, 101], [108, 108, 111]]).fileOnDisk =
      some [104, 101, 108, 108, 111] :=
  have h := receiveFile_roundtrip ⟨"notes.txt", 5, ""⟩ "10.0.0.2"
    [[104, 101], [108, 108, 111]] (by decide) (by decide)
  ⟨h.1, h.2.1⟩

/-- C5 counterexample: with filesize 100, a first read of 15 bytes
crosses the 10-percent boundary but lands on 15 percent, which is not a
multiple of 10, so no progress callback fires for that boundary; the only
invocation in the whole transfer reports 100. -/
theorem progress_boundary_skip_cex :
    receiveFile true ⟨"big.bin", 100, ""⟩ "1.2.3.4"
        [ReadEvent.data (List.replicate 15 7), ReadEvent.data (List.replicate 85 7)] =
      some ⟨true, some (List.replicate 100 7), false,
            [ServerMsg.receiving, ServerMsg.complete "big.bin"],
            [("1.2.3.4", 100)], [15, 100], some ("big.bin", 100), true⟩ ∧
    (("1.2.3.4", (10 : Int)) ∉ [(("1.2.3.4" : String), (100 : Int))]) :=
  ⟨by decide, by decide⟩

/-- C5 (amended): after every successful read the bytes-received counter
is updated with the new cumulative total, and the progress callback is
invoked exactly when the integer percentage (total * 100 / filesize)
after the read is a multiple of 10 and differs from the last reported
value; boundaries jumped over without landing on a multiple of 10
produce no callback. -/
theorem progress_callback_amended (fi : FileInfoD) (ip : String)
    (chunks : List (List Nat)) (r : RResult)
    (hv : ∀ c ∈ chunks, c ≠ [] ∧ c.length ≤ 8192)
    (hlen : chunks.flatten.length = fi.filesize)
    (hr : receiveFile true fi ip (chunks.map ReadEvent.data) = some r) :
    r.registryUpdates = partialTotals 0 chunks ∧
    r.progressCalls = progressFilter fi.filesize ip (-1) (partialTotals 0 chunks) := by
  rw [receiveFile_data_complete fi ip chunks hv hlen] at hr
  obtain rfl := Option.some.inj hr
  exact ⟨rfl, rfl⟩

/-- Witness for C5 (amended) on a ten-byte transfer in two reads. -/
theorem progress_callback_amended_witness :
    (completeResult ⟨"p.bin", 10, ""⟩ "ip"
        [[1, 2, 3, 4, 5], [6, 7, 8, 9, 10]]).registryUpdates =
      partialTotals 0 [[1, 2, 3, 4, 5], [6, 7, 8, 9, 10]] ∧
    (completeResult ⟨"p.bin", 10, ""⟩ "ip"
        [[1, 2, 3, 4, 5], [6, 7, 8, 9, 10]]).progressCalls =
      progressFilter 10 "ip" (-1)
        (partialTotals 0 [[1, 2, 3, 4, 5], [6, 7, 8, 9, 10]]) :=
  progress_callback_amended ⟨"p.bin", 10, ""⟩ "ip"
    [[1, 2, 3, 4, 5], [6, 7, 8, 9, 10]]
    (completeResult ⟨"p.bin", 10, ""⟩ "ip" [[1, 2, 3, 4, 5], [6, 7, 8, 9, 10]])
    (by decide) (by decide) (by decide)

/-- When the output stream opened, receiveFile marks the file as
created. -/
theorem receiveFile_fileCreated (fi : FileInfoD) (ip : String)
    (events : List ReadEvent) (r : RResult)
    (h : receiveFile true fi ip events = some r) :
    r.fileCreated = true := by
  rw [receiveFile, if_neg (by simp)] at h
  split at h
  · exact absurd h (by simp)
  · split at h
    · obtain rfl := Option.some.inj h; rfl
    · obtain rfl := Option.some.inj h; rfl
    · split at h
      · obtain rfl := Option.some.inj h; rfl
      · obtain rfl := Option.some.inj h; rfl

/-- C7: every exit of the file-receive phase leaves the output stream
closed, and a file remains on disk exactly when the transfer succeeded,
in which case its length is exactly the declared filesize; every failed
or cut-short path deletes the partial output. -/
theorem receiveFile_resource_discipline (canOpen : Bool) (fi : FileInfoD)
    (ip : String) (events : List ReadEvent) (r : RResult)
    (h : receiveFile canOpen fi ip events = some r) :
    r.fileOpen = false ∧
    diskLen r.fileOnDisk = (if r.success = true then some fi.filesize else none) := by
  rw [receiveFile] at h
  split at h
  · obtain rfl := Option.some.inj h
    exact ⟨rfl, rfl⟩
  · split at h
    · exact absurd h (by simp)
    · rename_i lo heq
      have hlen : lo.content.length = lo.total :=
        recvLoop_length fi.filesize ip events 0 [] (-1) [] [] lo heq rfl
      split at h
      · obtain rfl := Option.some.inj h; exact ⟨rfl, rfl⟩
      · obtain rfl := Option.some.inj h; exact ⟨rfl, rfl⟩
      · split at h
        · rename_i htot
          obtain rfl := Option.some.inj h
          exact ⟨rfl, by simp [diskLen, hlen, htot]⟩
        · obtain rfl := Option.some.inj h; exact ⟨rfl, rfl⟩

/-- Witness for C7 on a transfer aborted by peer close after zero
bytes. -/
theorem receiveFile_resource_discipline_witness :
    (⟨false, none, false, [ServerMsg.receiving], [], [], none, true⟩ : RResult).fileOpen = false ∧
    diskLen (⟨false, none, false, [ServerMsg.receiving], [], [], none, true⟩ : RResult).fileOnDisk =
      (if (⟨false, none, false, [ServerMsg.receiving], [], [], none, true⟩ : RResult).success = true
       then some (3 : Nat) else none) :=
  receiveFile_resource_discipline true ⟨"a.txt", 3, ""⟩ "ip" [ReadEvent.closed]
    ⟨false, none, false, [ServerMsg.receiving], [], [], none, true⟩ (by decide)

/-- Decoding the FILE_INFO wire form recovers the kind and payload. -/
theorem deserializeD_fileInfoJson (name : String) (size : Nat) :
    deserializeD (fileInfoJson name size) =
      some ⟨some MessageType.FILE_INFO,
            Json.obj [("filename", Json.str name),
                      ("filesize", Json.num size),
                      ("checksum", Json.str "")]⟩ := rfl

/-- handleClient on a FILE_INFO message reduces to the transfer run. -/
theorem handleMessage_fileInfo (clients : List ClientInfo) (sock : Int)
    (ip name : String) (size : Nat) (canOpen : Bool)
    (body : List ReadEvent) :
    handleMessage clients sock ip (fileInfoJson name size) canOpen body =
      match receiveFile canOpen ⟨name, size, ""⟩ ip body with
      | none => none
      | some r =>
        some ⟨SessionState.awaitingMessage,
              applyUpdates (updateClientFileInfo clients sock name) sock
                r.registryUpdates,
              ServerMsg.ready :: r.sent, some r⟩ := rfl

/-- handleClient on a FILE_INFO message whose transfer yields a result. -/
theorem handleMessage_fileInfo_some (clients : List ClientInfo) (sock : Int)
    (ip name : String) (size : Nat) (canOpen : Bool)
    (body : List ReadEvent) (r : RResult)
    (hr : receiveFile canOpen ⟨name, size, ""⟩ ip body = some r) :
    handleMessage clients sock ip (fileInfoJson name size) canOpen body =
      some ⟨SessionState.awaitingMessage,
            applyUpdates (updateClientFileInfo clients sock name) sock
              r.registryUpdates,
            ServerMsg.ready :: r.sent, some r⟩ := by
  rw [handleMessage_fileInfo, hr]

/-- C2 counterexample: a transfer of declared size 4 receives 2 bytes and
then a peer close.  The partial file is deleted and the session keeps
looping, but the messages sent on this run are exactly the "ready" and
"receiving" statuses: no Error-kind response is ever sent on the
short-read path. -/
theorem shortRead_no_error_response_cex :
    handleMessage [⟨5, "9.9.9.9", 4000, true, 0, ""⟩] 5 "9.9.9.9"
        (fileInfoJson "f.bin" 4) true [ReadEvent.data [1, 2], ReadEvent.closed] =
      some ⟨SessionState.awaitingMessage,
            [⟨5, "9.9.9.9", 4000, true, 2, "f.bin"⟩],
            [ServerMsg.ready, ServerMsg.receiving],
            some ⟨false, none, false, [ServerMsg.receiving],
                  [("9.9.9.9", 50)], [2], none, true⟩⟩ ∧
    noErrorSent [ServerMsg.ready, ServerMsg.receiving] = true :=
  ⟨by decide, by decide⟩

/-- C2 (amended): when the socket yields zero bytes before the declared
filesize is reached, the partially written output file is deleted from
disk and the session returns to AwaitingMessage (the receive loop
continues) rather than to Closed; however no Error-kind response is sent
to the peer on this path — the only statuses sent are "ready" and
"receiving". -/
theorem shortRead_cleanup_amended (clients : List ClientInfo) (sock : Int)
    (ip name : String) (size : Nat) (chunks : List (List Nat))
    (rest : List ReadEvent) (out : HandleOut)
    (hv : ∀ c ∈ chunks, c ≠ [] ∧ c.length ≤ 8192)
    (hlen : chunks.flatten.length < size)
    (hout : handleMessage clients sock ip (fileInfoJson name size) true
        (chunks.map ReadEvent.data ++ ReadEvent.closed :: rest) = some out) :
    out.state = SessionState.awaitingMessage ∧
    out.transfer = some (closedResult size ip chunks) ∧
    (closedResult size ip chunks).fileOnDisk = none ∧
    (closedResult size ip chunks).success = false ∧
    out.sent = [ServerMsg.ready, ServerMsg.receiving] ∧
    noErrorSent out.sent = true := by
  have hrf : receiveFile true ⟨name, size, ""⟩ ip
      (chunks.map ReadEvent.data ++ ReadEvent.closed :: rest) =
      some (closedResult size ip chunks) :=
    receiveFile_data_closed ⟨name, size, ""⟩ ip chunks rest hv hlen
  rw [handleMessage_fileInfo_some clients sock ip name size true _ _ hrf] at hout
  obtain rfl := Option.some.inj hout
  exact ⟨rfl, rfl, rfl, rfl, rfl, rfl⟩

/-- Witness for C2 (amended) on a concrete short transfer. -/
theorem shortRead_cleanup_amended_witness :
    noErrorSent [ServerMsg.ready, ServerMsg.receiving] = true := by
  have h := shortRead_cleanup_amended [⟨3, "ip", 1, true, 0, ""⟩] 3 "ip" "f" 4
      [[1, 2]] []
      ⟨SessionState.awaitingMessage, [⟨3, "ip", 1, true, 2, "f"⟩],
       [ServerMsg.ready, ServerMsg.receiving],
       some (closedResult 4 "ip" [[1, 2]])⟩
      (by decide) (by decide) (by decide)
  exact h.2.2.2.2.2

/-- C3: deserialize applied to the text with type "BOGUS" does not yield
a protocol-level failure: it returns a message whose enum field was never
assigned (an indeterminate value in the C++, undefined behaviour) and
whose data is null; the session's default branch then logs it and keeps
awaiting messages with no state change. -/
theorem deserialize_unknown_type_bug :
    deserializeD (Json.obj [("type", Json.str "BOGUS")]) =
      some ⟨none, Json.null⟩ ∧
    handleMessage [⟨4, "ip", 1, true, 0, ""⟩] 4 "ip"
        (Json.obj [("type", Json.str "BOGUS")]) true [] =
      some ⟨SessionState.awaitingMessage, [⟨4, "ip", 1, true, 0, ""⟩], [], none⟩ :=
  ⟨rfl, by decide⟩

/-- C6 counterexample: two FileInfo messages announcing the same filename
but different sizes (5 and 7) leave the server in identical states — in
particular identical Registry entries — so the announced size is not
recorded against the session's Registry entry (ClientInfo has no size
field). -/
theorem fileinfo_size_not_recorded_cex :
    handleMessage [⟨7, "ip", 4444, true, 99, "old"⟩] 7 "ip"
        (fileInfoJson "a.txt" 5) true [ReadEvent.closed] =
      some ⟨SessionState.awaitingMessage, [⟨7, "ip", 4444, true, 0, "a.txt"⟩],
            [ServerMsg.ready, ServerMsg.receiving],
            some ⟨false, none, false, [ServerMsg.receiving], [], [], none, true⟩⟩ ∧
    handleMessage [⟨7, "ip", 4444, true, 99, "old"⟩] 7 "ip"
        (fileInfoJson "a.txt" 7) true [ReadEvent.closed] =
      some ⟨SessionState.awaitingMessage, [⟨7, "ip", 4444, true, 0, "a.txt"⟩],
            [ServerMsg.ready, ServerMsg.receiving],
            some ⟨false, none, false, [ServerMsg.receiving], [], [], none, true⟩⟩ :=
  ⟨by decide, by decide⟩

/-- C6 (amended): on a successfully decoded FileInfo the handler records
the announced filename against this session's Registry entry and resets
its bytes-received counter to 0 (the announced size is not stored in the
Registry; it lives only in the handler-local FileInfo passed to the
receive phase), sends the "ready" acknowledgment, and only then enters
the ReceivingFile phase, whose sends follow the acknowledgment. -/
theorem fileinfo_handler_amended (clients : List ClientInfo) (sock : Int)
    (ip name : String) (size : Nat) (canOpen : Bool) (body : List ReadEvent)
    (r : RResult) (out : HandleOut)
    (hr : receiveFile canOpen ⟨name, size, ""⟩ ip body = some r)
    (hout : handleMessage clients sock ip (fileInfoJson name size) canOpen body
      = some out) :
    out.state = SessionState.awaitingMessage ∧
    out.clients = applyUpdates (updateClientFileInfo clients sock name) sock
      r.registryUpdates ∧
    out.sent = ServerMsg.ready :: r.sent ∧
    out.transfer = some r := by
  rw [handleMessage_fileInfo_some clients sock ip name size canOpen body r hr]
    at hout
  obtain rfl := Option.some.inj hout
  exact ⟨rfl, rfl, rfl, rfl⟩

/-- Witness for C6 (amended): the registry entry gets the filename and a
zeroed byte counter. -/
theorem fileinfo_handler_amended_witness :
    (⟨SessionState.awaitingMessage, [⟨2, "ip", 1, true, 0, "n.txt"⟩],
      [ServerMsg.ready, ServerMsg.receiving],
      some (closedResult 9 "ip" [])⟩ : HandleOut).clients =
      applyUpdates (updateClientFileInfo [⟨2, "ip", 1, true, 55, "x"⟩] 2 "n.txt")
        2 (closedResult 9 "ip" []).registryUpdates := by
  have h := fileinfo_handler_amended [⟨2, "ip", 1, true, 55, "x"⟩] 2 "ip" "n.txt"
      9 true [ReadEvent.closed] (closedResult 9 "ip" [])
      ⟨SessionState.awaitingMessage, [⟨2, "ip", 1, true, 0, "n.txt"⟩],
       [ServerMsg.ready, ServerMsg.receiving], some (closedResult 9 "ip" [])⟩
      (by decide) (by decide)
  exact h.2.1

/-- Removing an absent connection identifier changes nothing. -/
theorem removeClient_absent :
    ∀ (clients : List ClientInfo) (sock : Int),
      sock ∉ clients.map ClientInfo.socket_fd →
      removeClient clients sock = clients := by
  intro clients sock
  induction clients with
  | nil => intro _; rfl
  | cons c rest ih =>
    intro h
    simp only [List.map_cons, List.mem_cons, not_or] at h
    rw [removeClient, if_neg (fun he => h.1 he.symm), ih h.2]

/-- With unique registry keys, removing twice equals removing once. -/
theorem removeClient_twice :
    ∀ (clients : List ClientInfo) (sock : Int),
      (clients.map ClientInfo.socket_fd).Nodup →
      removeClient (removeClient clients sock) sock =
        removeClient clients sock := by
  intro clients sock
  induction clients with
  | nil => intro _; rfl
  | cons c rest ih =>
    intro hnd
    simp only [List.map_cons, List.nodup_cons] at hnd
    by_cases he : c.socket_fd = sock
    · rw [removeClient, if_pos he]
      exact removeClient_absent rest sock (he ▸ hnd.1)
    · rw [removeClient, if_neg he]
      rw [removeClient, if_neg he]
      rw [ih hnd.2]

/-- C8: removeClient is idempotent — with an identifier not present in
the Registry it leaves the client list unchanged (and signals no error,
the function is total), and under the Registry invariant of unique
connection identifiers, calling it twice has the same effect as calling
it once. -/
theorem removeClient_idempotent (clients : List ClientInfo) (sock : Int) :
    (sock ∉ clients.map ClientInfo.socket_fd →
      removeClient clients sock = clients) ∧
    ((clients.map ClientInfo.socket_fd).Nodup →
      removeClient (removeClient clients sock) sock =
        removeClient clients sock) :=
  ⟨removeClient_absent clients sock, removeClient_twice clients sock⟩

/-- Witness for C8 on a two-entry registry. -/
theorem removeClient_idempotent_witness :
    removeClient [⟨1, "a", 1, true, 0, ""⟩, ⟨2, "b", 2, true, 0, ""⟩] 9 =
      [⟨1, "a", 1, true, 0, ""⟩, ⟨2, "b", 2, true, 0, ""⟩] ∧
    removeClient (removeClient [⟨1, "a", 1, true, 0, ""⟩, ⟨2, "b", 2, true, 0, ""⟩] 1) 1 =
      removeClient [⟨1, "a", 1, true, 0, ""⟩, ⟨2, "b", 2, true, 0, ""⟩] 1 :=
  ⟨(removeClient_idempotent [⟨1, "a", 1, true, 0, ""⟩, ⟨2, "b", 2, true, 0, ""⟩] 9).1
      (by decide),
   (removeClient_idempotent [⟨1, "a", 1, true, 0, ""⟩, ⟨2, "b", 2, true, 0, ""⟩] 1).2
      (by decide)⟩

/-- C9: stop() is idempotent — when the server is already stopped
(is_running false) the early return leaves the listening socket, the
client list and every other field unchanged. -/
theorem stop_idempotent_when_stopped (s : ServerState)
    (h : s.is_running = false) : stopD s = s := by
  rw [stopD, if_pos h]

/-- Witness for C9 on a stopped server with leftover state. -/
theorem stop_idempotent_when_stopped_witness :
    stopD ⟨false, 3, [⟨1, "a", 1, true, 0, ""⟩], true⟩ =
      ⟨false, 3, [⟨1, "a", 1, true, 0, ""⟩], true⟩ :=
  stop_idempotent_when_stopped ⟨false, 3, [⟨1, "a", 1, true, 0, ""⟩], true⟩ rfl

/-- C10: the stored output path is the announced filename verbatim — the
computed timestamp is discarded (the name does not depend on it), the
announced name is used as-is even when it contains path separators, the
path written is exactly the announced filename, its previous content is
silently overwritten regardless of what was stored there, and no other
path is touched. -/
theorem output_path_verbatim (fi : FileInfoD) (ip : String)
    (events : List ReadEvent) (r : RResult) (fs : FileSys)
    (t tp : Nat) (p : String)
    (h : receiveFile true fi ip events = some r) :
    outputFilename fi t = fi.filename ∧
    outputFilename fi t = outputFilename fi tp ∧
    applyReceive fs fi t r fi.filename = r.fileOnDisk ∧
    (p ≠ fi.filename → applyReceive fs fi t r p = fs p) := by
  have hcr : r.fileCreated = true := receiveFile_fileCreated fi ip events r h
  refine ⟨rfl, rfl, ?_, ?_⟩
  · simp [applyReceive, hcr, outputFilename]
  · intro hp
    simp [applyReceive, hcr, outputFilename, hp]

/-- Witness for C10: the announced name "../x" escapes the working
directory, is stored verbatim with the transferred content replacing
what was there, and an unrelated path is untouched. -/
theorem output_path_verbatim_witness :
    outputFilename ⟨"../x", 1, ""⟩ 0 = "../x" ∧
    applyReceive demoFs ⟨"../x", 1, ""⟩ 0
        ⟨true, some [7], false,
         [ServerMsg.receiving, ServerMsg.complete "../x"],
         [("ip", 100)], [1], some ("../x", 1), true⟩ "../x" = some [7] ∧
    applyReceive demoFs ⟨"../x", 1, ""⟩ 0
        ⟨true, some [7], false,
         [ServerMsg.receiving, ServerMsg.complete "../x"],
         [("ip", 100)], [1], some ("../x", 1), true⟩ "notes.txt" =
      demoFs "notes.txt" := by
  have h := output_path_verbatim ⟨"../x", 1, ""⟩ "ip" [ReadEvent.data [7]]
      ⟨true, some [7], false,
       [ServerMsg.receiving, ServerMsg.complete "../x"],
       [("ip", 100)], [1], some ("../x", 1), true⟩ demoFs 0 5 "notes.txt"
      (by decide)
  exact ⟨h.1, h.2.2.1, h.2.2.2 (by decide)⟩
